import Mathlib

/-!
Verification of the tiberius client core: request assembly (`Client::rpc_params`,
`Client::rpc_perform_query`, `Client::query` in src/client.rs), the authentication
data model (src/client/auth.rs), and the synchronous wrapper
(src/client/tokio_sync_client.rs), as a shallow embedding in Lean.

Parts of the repository referenced by src/client.rs but whose source is not in
the repository snapshot (the codec's `ColumnData::type_name`, `TokenRpcRequest`,
`PacketHeader`, and the connection internals `flush_stream`, `context`,
`next_packet_id`, `send`, and the stream's `into_row`) are modelled from the
specification and carry a doc comment saying so.
-/

namespace Tiberius

/-- Column values: a tagged union over wire types, each variant holding an
`Option` to represent SQL NULL distinctly from a present value.  Subset of the
codec's `ColumnData` variants sufficient for parameter binding. -/
inductive ColumnData where
  | Bit : Option Bool → ColumnData
  | I32 : Option Int → ColumnData
  | I64 : Option Int → ColumnData
  | F64 : Option Int → ColumnData
  | Str : Option String → ColumnData
  deriving Repr, DecidableEq

/-- Modelled from the spec: the inferred SQL type signature is "computed from
each bound value's wire type" (the codec module holding `ColumnData::type_name`
is not in the repository snapshot); the spec's scenario pins the 32-bit integer
wire type to the name `int`. -/
def ColumnData.type_name : ColumnData → String
  | .Bit _ => "bit"
  | .I32 _ => "int"
  | .I64 _ => "bigint"
  | .F64 _ => "float"
  | .Str _ => "nvarchar(max)"

/-- RPC parameter: name, direction/behavior flags, column value.  `BitFlags::empty()`
is modelled as the flag value 0. -/
structure RpcParam where
  name : String
  flags : Nat
  value : ColumnData
  deriving Repr, DecidableEq

/-- Remote procedure identifiers used by the client (only `ExecuteSQL` is used
by `Client::query`). -/
inductive RpcProcId where
  | ExecuteSQL
  deriving Repr, DecidableEq

/-- Modelled from the spec: the RPC request message is "a small header
(transaction descriptor, outstanding-request count) followed by ... a procedure
identifier plus an ordered parameter list" (`TokenRpcRequest` is defined in the
codec module, not in the repository snapshot).  The transaction descriptor is
the opaque 8-byte identifier, modelled as a `Nat`. -/
structure TokenRpcRequest where
  proc_id : RpcProcId
  params : List RpcParam
  transaction_descriptor : Nat
  deriving Repr, DecidableEq

/-- Build an RPC request; mirrors `TokenRpcRequest::new(proc_id, rpc_params, td)`. -/
def TokenRpcRequest.new (proc_id : RpcProcId) (params : List RpcParam)
    (transaction_descriptor : Nat) : TokenRpcRequest :=
  ⟨proc_id, params, transaction_descriptor⟩

/-- Packet kinds from the wire format (subset: only the RPC kind is needed here). -/
inductive PacketType where
  | Rpc
  deriving Repr, DecidableEq

/-- Modelled from the spec: packet header carries a type byte and a one-byte
packet id (full wire layout: type, status, length, SPID, packet id, window);
only the fields the claims mention are modelled. -/
structure PacketHeader where
  ty : PacketType
  id : Nat
  deriving Repr, DecidableEq

/-- Mirrors `PacketHeader::rpc(id)`: an RPC-kind header carrying the given packet id. -/
def PacketHeader.rpc (id : Nat) : PacketHeader := ⟨PacketType.Rpc, id⟩

/-- Connection context: packet-id counter and transaction descriptor, per the
spec's data model (the `connection` module is not in the repository snapshot). -/
structure ConnContext where
  packetId : Nat
  transactionDescriptor : Nat
  deriving Repr, DecidableEq

/-- Modelled from the spec: the packet-id counter is "monotonic, wraps within
protocol-defined range" — the packet id is a single byte, so it wraps mod 256.
Returns the id to use and the advanced context, mirroring `Context::next_packet_id`. -/
def ConnContext.next_packet_id (c : ConnContext) : Nat × ConnContext :=
  (c.packetId, { c with packetId := (c.packetId + 1) % 256 })

/-- Transport-facing effects performed by the connection, recorded as an
explicit event trace: draining leftover tokens from the wire, and sending one
framed request. -/
inductive Event where
  | flush
  | send (header : PacketHeader) (req : TokenRpcRequest)
  deriving Repr, DecidableEq

/-- Connection state visible to the client operations: the mutable context and
the number of tokens still pending on the wire from an abandoned result stream. -/
structure ConnState where
  ctx : ConnContext
  pendingTokens : Nat
  deriving Repr, DecidableEq

/-- Modelled from the spec: `Connection::flush_stream` "must still drain
remaining tokens from the wire before the connection can accept another
request"; it drains all pending tokens and records a flush event. -/
def flush_stream (s : ConnState) : ConnState × List Event :=
  ({ s with pendingTokens := 0 }, [Event.flush])

/-- Mirrors `Client::rpc_params`: the two fixed parameters, the literal query
text under the name `stmt` and an `I32 0` placeholder under the name `params`. -/
def rpc_params (query : String) : List RpcParam :=
  [ ⟨"stmt", 0, ColumnData.Str (some query)⟩,
    ⟨"params", 0, ColumnData.I32 (some 0)⟩ ]

/-- The parameter loop of `Client::rpc_perform_query`: for each bound value at
index `i` it appends a comma when `i > 0`, then `@P(i+1) ` and the value's type
name to the signature string, and pushes the positional parameter named
`@P(i+1)` onto the parameter list. -/
def rpcLoop (i : Nat) (param_str : String) (rpc_params : List RpcParam) :
    List ColumnData → String × List RpcParam
  | [] => (param_str, rpc_params)
  | p :: rest =>
      let param_str :=
        (if i > 0 then param_str ++ "," else param_str) ++
          "@P" ++ toString (i + 1) ++ " " ++ p.type_name
      rpcLoop (i + 1) param_str
        (rpc_params ++ [⟨"@P" ++ toString (i + 1), 0, p⟩]) rest

/-- The find-and-replace step of `Client::rpc_perform_query`: the first
parameter named `params` has its value overwritten with the signature string
(mirrors `iter_mut().find(|x| x.name == "params")`). -/
def setParams (s : String) : List RpcParam → List RpcParam
  | [] => []
  | p :: rest =>
      if p.name = "params" then { p with value := ColumnData.Str (some s) } :: rest
      else p :: setParams s rest

/-- Mirrors `Client::rpc_perform_query`: build the signature string and the
positional parameters, overwrite the `params` placeholder, assemble the
`TokenRpcRequest` with the context's transaction descriptor, draw a packet id
from the context, and send the request under an RPC packet header.  The send is
recorded as the event trace. -/
def rpc_perform_query (proc_id : RpcProcId) (rpcParams : List RpcParam)
    (params : List ColumnData) (s : ConnState) : ConnState × List Event :=
  let r := rpcLoop 0 "" rpcParams params
  let rpcParams := setParams r.1 r.2
  let req := TokenRpcRequest.new proc_id rpcParams s.ctx.transactionDescriptor
  let idCtx := s.ctx.next_packet_id
  ({ s with ctx := idCtx.2 }, [Event.send (PacketHeader.rpc idCtx.1) req])

/-- Mirrors `Client::query`: drain any leftover tokens with `flush_stream`,
build the fixed parameters with `rpc_params`, then perform the RPC with the
bound values.  The event trace is the concatenation of both steps' traces. -/
def query (q : String) (params : List ColumnData) (s : ConnState) :
    ConnState × List Event :=
  let f := flush_stream s
  let rp := rpc_params q
  let r := rpc_perform_query RpcProcId.ExecuteSQL rp params f.1
  (r.1, f.2 ++ r.2)

/-- Closed form of the signature string for the loop iterations after the
first: each bound value at 0-based index `k` contributes `,@P(k+1) type`. -/
def sigFrom (k : Nat) : List ColumnData → String
  | [] => ""
  | p :: rest => "," ++ "@P" ++ toString (k + 1) ++ " " ++ p.type_name ++ sigFrom (k + 1) rest

/-- Closed form of the positional parameter list from 0-based index `k`. -/
def posFrom (k : Nat) : List ColumnData → List RpcParam
  | [] => []
  | p :: rest => ⟨"@P" ++ toString (k + 1), 0, p⟩ :: posFrom (k + 1) rest

/-- The full signature string: `@P1 t1,@P2 t2,...` (empty for no parameters). -/
def typeSig : List ColumnData → String
  | [] => ""
  | p :: rest => "@P1 " ++ p.type_name ++ sigFrom 1 rest

/-- Comma-separated join of a list of strings (the spec-side reading of
"lists, comma-separated"). -/
def commaSeparated : List String → String
  | [] => ""
  | [x] => x
  | x :: rest => x ++ "," ++ commaSeparated rest

/-- The per-placeholder signature fragments `@P(i+1) type`, 1-based. -/
def sigList (k : Nat) : List ColumnData → List String
  | [] => []
  | p :: rest => ("@P" ++ toString (k + 1) ++ " " ++ p.type_name) :: sigList (k + 1) rest

/-- The parameter list of the request that `query q ps` sends. -/
def requestParams (q : String) (ps : List ColumnData) : List RpcParam :=
  let r := rpcLoop 0 "" (rpc_params q) ps
  setParams r.1 r.2

/-- The parameter-assembly core of `rpc_perform_query` as a pure function: the
loop over the bound values followed by the `params` replacement.  It takes no
connection state and records no transport events. -/
def assembleParams (rp : List RpcParam) (ps : List ColumnData) : List RpcParam :=
  let r := rpcLoop 0 "" rp ps
  setParams r.1 r.2

/-- Plain SQL Server credentials (src/client/auth.rs): user and password. -/
structure SqlServerAuth where
  user : String
  password : String
  deriving Repr, DecidableEq

/-- The authentication method (src/client/auth.rs): plain credentials, a
bearer token, or the hidden unimplemented placeholder. -/
inductive AuthMethod where
  | SqlServer : SqlServerAuth → AuthMethod
  | AADToken : String → AuthMethod
  | None : AuthMethod
  deriving Repr, DecidableEq

/-- Mirrors `AuthMethod::sql_server(user, password)`. -/
def AuthMethod.sql_server (user password : String) : AuthMethod :=
  AuthMethod.SqlServer ⟨user, password⟩

/-- Mirrors `AuthMethod::aad_token(token)`. -/
def AuthMethod.aad_token (token : String) : AuthMethod :=
  AuthMethod.AADToken token

/-- Rust `Debug` escaping for one character inside a quoted string (quotes,
backslash and common control characters). -/
def escapeDebugChar (c : Char) : String :=
  if c = '"' then "\\\""
  else if c = '\\' then "\\\\"
  else if c = '\n' then "\\n"
  else if c = '\t' then "\\t"
  else if c = '\r' then "\\r"
  else String.singleton c

/-- Rust `Debug` rendering of a string value: quoted and escaped. -/
def stringDebug (s : String) : String :=
  "\"" ++ String.join (s.data.map escapeDebugChar) ++ "\""

/-- Mirrors `impl Debug for SqlServerAuth`: a debug struct with the `user`
field rendered from the value and the `password` field rendered from the
literal `<HIDDEN>` instead of the stored password. -/
def SqlServerAuth.debugFmt (a : SqlServerAuth) : String :=
  "SqlServerAuth \x7b user: " ++ stringDebug a.user ++
    ", password: " ++ stringDebug "<HIDDEN>" ++ " \x7d"

/-- Errors surfaced by the client (`crate::Result`): transport, protocol and
server-reported failures. -/
inductive TdsError where
  | ioError
  | protocolError (msg : String)
  | serverError (code : Nat) (msg : String)
  deriving Repr, DecidableEq

/-- The client owns a connection (mirrors `struct Client { connection }`). -/
structure ClientModel where
  connection : ConnState
  deriving Repr, DecidableEq

/-- Mirrors `Client::connect`: wraps the result of `Connection::connect`; the
`?` operator propagates any error unchanged, a success is wrapped in `Client`. -/
def Client.connect (r : Except TdsError ConnState) : Except TdsError ClientModel :=
  match r with
  | Except.ok c => Except.ok ⟨c⟩
  | Except.error e => Except.error e

/-- Mirrors `Client::close`: delegates to `self.connection.close()` and
returns its result unchanged. -/
def Client.close (r : Except TdsError Unit) : Except TdsError Unit := r

/-- Tokens of a response stream (spec data model); only the shape needed by
the result-stream model. -/
inductive Token where
  | metadata
  | row (values : List ColumnData)
  | error (code : Nat)
  | info
  | done
  deriving Repr, DecidableEq

/-- A row: a sequence of column values. -/
structure Row where
  values : List ColumnData
  deriving Repr, DecidableEq

/-- The result stream for one query, as the sequence of tokens it will yield. -/
structure QueryStream where
  tokens : List Token
  deriving Repr, DecidableEq

/-- Modelled from the spec: the result stream's `into_row` consumes tokens
until the first row, which it returns; a server error token terminates the
stream with that error; an exhausted stream yields no row (the `tds::stream`
module is not in the repository snapshot). -/
def intoRowAux : List Token → Except TdsError (Option Row)
  | [] => Except.ok none
  | Token.row vs :: _ => Except.ok (some ⟨vs⟩)
  | Token.error c :: _ => Except.error (TdsError.serverError c "")
  | _ :: rest => intoRowAux rest

/-- Mirrors `QueryStream::into_row` on the token model. -/
def QueryStream.into_row (qs : QueryStream) : Except TdsError (Option Row) :=
  intoRowAux qs.tokens

/-- The error paths of `Client::query`: the three awaited fallible steps
(`flush_stream`, `rpc_perform_query`, `forward_to_metadata`) are given by
their results; each `?` propagates the first error, otherwise the stream is
returned. -/
def Client.query (flushR : Except TdsError Unit) (sendR : Except TdsError Unit)
    (metaR : Except TdsError QueryStream) : Except TdsError QueryStream := do
  let _ ← flushR
  let _ ← sendR
  metaR

/-- The synchronous wrapper holds the client (the runtime field only drives
futures and carries no protocol state). -/
structure SyncClientModel where
  client : ClientModel
  deriving Repr, DecidableEq

/-- The synchronous stream wraps the async stream. -/
structure SyncQueryStream where
  query_stream : QueryStream
  deriving Repr, DecidableEq

/-- Mirrors `SyncQueryStream::new`. -/
def SyncQueryStream.new (qs : QueryStream) : SyncQueryStream := ⟨qs⟩

/-- Mirrors `TokioSyncClient::new`: the connect result is `.unwrap()`ed — on
error the constructor panics instead of returning the error; the panic is
modelled as `none`, which carries no error value to the caller. -/
def TokioSyncClient.new (connectR : Except TdsError ClientModel) :
    Option SyncClientModel :=
  match connectR with
  | Except.ok c => some ⟨c⟩
  | Except.error _ => none

/-- Mirrors `TokioSyncClient::query`: `block_on` runs the async
`Client::query` to completion (modelled as the identity on its result); on
success the stream is wrapped with `SyncQueryStream::new`, and `?` propagates
any error unchanged. -/
def TokioSyncClient.query (r : Except TdsError QueryStream) :
    Except TdsError SyncQueryStream :=
  match r with
  | Except.ok qs => Except.ok (SyncQueryStream.new qs)
  | Except.error e => Except.error e

/-- Mirrors `SyncQueryStream::into_row`: `block_on` of the async `into_row`
on the wrapped stream. -/
def SyncQueryStream.into_row (s : SyncQueryStream) : Except TdsError (Option Row) :=
  s.query_stream.into_row

theorem rpcLoop_tail (ps : List ColumnData) : ∀ (k : Nat) (acc : String) (rp : List RpcParam),
    rpcLoop (k + 1) acc rp ps = (acc ++ sigFrom (k + 1) ps, rp ++ posFrom (k + 1) ps) := by
  induction ps with
  | nil => intro k acc rp; simp [rpcLoop, sigFrom, posFrom]
  | cons p rest ih =>
      intro k acc rp
      simp only [rpcLoop, sigFrom, posFrom, if_pos (Nat.succ_pos k)]
      rw [ih (k + 1)]
      simp [String.append_assoc, List.append_assoc]

theorem commaSeparated_sigList (rest : List ColumnData) :
    ∀ (k : Nat) (p : ColumnData),
    commaSeparated (sigList k (p :: rest)) =
      "@P" ++ toString (k + 1) ++ " " ++ p.type_name ++ sigFrom (k + 1) rest := by
  induction rest with
  | nil => intro k p; simp [commaSeparated, sigList, sigFrom]
  | cons q rest2 ih =>
      intro k p
      simp only [sigList, commaSeparated, sigFrom]
      have h := ih (k + 1) q
      simp only [sigList] at h
      rw [h]
      simp only [String.append_assoc]

theorem rpcLoop_zero (ps : List ColumnData) (rp : List RpcParam) :
    rpcLoop 0 "" rp ps = (commaSeparated (sigList 0 ps), rp ++ posFrom 0 ps) := by
  cases ps with
  | nil => simp [rpcLoop, sigList, commaSeparated, posFrom]
  | cons p rest =>
      simp only [rpcLoop, if_neg (by decide : ¬ (0 : Nat) > 0)]
      rw [rpcLoop_tail rest 0]
      rw [commaSeparated_sigList rest 0 p]
      simp [String.append_assoc, List.append_assoc, posFrom]

theorem sigList_enumFrom (ps : List ColumnData) : ∀ (k : Nat),
    sigList k ps = (List.enumFrom k ps).map
      (fun ip => "@P" ++ toString (ip.1 + 1) ++ " " ++ ip.2.type_name) := by
  induction ps with
  | nil => intro k; simp [sigList]
  | cons p rest ih => intro k; simp [sigList, List.enumFrom, ih (k + 1)]

theorem posFrom_enumFrom (ps : List ColumnData) : ∀ (k : Nat),
    posFrom k ps = (List.enumFrom k ps).map
      (fun ip => ⟨"@P" ++ toString (ip.1 + 1), 0, ip.2⟩) := by
  induction ps with
  | nil => intro k; simp [posFrom]
  | cons p rest ih => intro k; simp [posFrom, List.enumFrom, ih (k + 1)]

theorem requestParams_eq (q : String) (ps : List ColumnData) :
    requestParams q ps =
      ⟨"stmt", 0, ColumnData.Str (some q)⟩ ::
      ⟨"params", 0, ColumnData.Str (some (commaSeparated (sigList 0 ps)))⟩ ::
      posFrom 0 ps := by
  simp [requestParams, rpc_params, rpcLoop_zero, setParams]

theorem query_events (q : String) (ps : List ColumnData) (s : ConnState) :
    query q ps s =
      (⟨⟨(s.ctx.packetId + 1) % 256, s.ctx.transactionDescriptor⟩, 0⟩,
       [Event.flush,
        Event.send (PacketHeader.rpc s.ctx.packetId)
          (TokenRpcRequest.new RpcProcId.ExecuteSQL (requestParams q ps)
            s.ctx.transactionDescriptor)]) := by
  simp [query, flush_stream, rpc_perform_query, ConnContext.next_packet_id,
    requestParams, TokenRpcRequest.new]

/-- C1: for every query text and every ordered list of bound parameter values,
the RPC request assembled by `rpc_params` and `rpc_perform_query` contains the
positional parameters in the caller's order under the deterministic 1-based
names `@P1, @P2, ...`, and a `params` parameter whose string value is the
comma-separated list of the signature fragments `@P(i+1) type`, where the type
is computed from the bound value's wire type. -/
theorem rpc_request_positional_params (q : String) (ps : List ColumnData) (s : ConnState) :
    (query q ps s).2 =
      [Event.flush,
       Event.send (PacketHeader.rpc s.ctx.packetId)
         (TokenRpcRequest.new RpcProcId.ExecuteSQL
           (⟨"stmt", 0, ColumnData.Str (some q)⟩ ::
            ⟨"params", 0, ColumnData.Str (some (commaSeparated
              (ps.enum.map (fun ip => "@P" ++ toString (ip.1 + 1) ++ " " ++ ip.2.type_name))))⟩ ::
            ps.enum.map (fun ip => ⟨"@P" ++ toString (ip.1 + 1), 0, ip.2⟩))
           s.ctx.transactionDescriptor)] := by
  rw [query_events, requestParams_eq, posFrom_enumFrom, sigList_enumFrom]
  rfl

/-- C2: `query "SELECT @P1" [42i32]` builds a request whose parameter list is
exactly `stmt = "SELECT @P1"`, `params = "@P1 int"`, `@P1 = 42`. -/
theorem rpc_request_select_p1_42 :
    (query "SELECT @P1" [ColumnData.I32 (some 42)] ⟨⟨0, 0⟩, 0⟩).2 =
      [Event.flush,
       Event.send (PacketHeader.rpc 0)
         (TokenRpcRequest.new RpcProcId.ExecuteSQL
           [⟨"stmt", 0, ColumnData.Str (some "SELECT @P1")⟩,
            ⟨"params", 0, ColumnData.Str (some "@P1 int")⟩,
            ⟨"@P1", 0, ColumnData.I32 (some 42)⟩] 0)] := by
  decide

/-- C3: every call to `query` first runs the drain (`flush_stream`), which
completes — leaving no pending tokens on the wire — and only then is the RPC
request written to the transport: the event trace is exactly a flush followed
by a single send. -/
theorem query_flushes_before_send (q : String) (ps : List ColumnData) (s : ConnState) :
    ∃ hdr req, (query q ps s).2 = [Event.flush, Event.send hdr req] ∧
      (flush_stream s).1.pendingTokens = 0 :=
  ⟨_, _, by rw [query_events], rfl⟩

/-- C4: building a request is pure data assembly: `rpc_params` is a function of
the query text alone (it takes no connection state), and `rpc_perform_query`
performs no transport I/O before the explicit send — its trace is exactly one
send event, the parameter list it carries is `assembleParams rp ps`,
independent of the connection state, and the only state change is advancing
the packet-id counter. -/
theorem rpc_assembly_pure (pid : RpcProcId) (rp : List RpcParam)
    (ps : List ColumnData) (s : ConnState) :
    (rpc_perform_query pid rp ps s).2 =
      [Event.send (PacketHeader.rpc s.ctx.packetId)
        (TokenRpcRequest.new pid (assembleParams rp ps) s.ctx.transactionDescriptor)]
    ∧ (rpc_perform_query pid rp ps s).1 =
        { s with ctx := { s.ctx with packetId := (s.ctx.packetId + 1) % 256 } } := by
  exact ⟨rfl, rfl⟩

/-- C6: every RPC request built by `rpc_perform_query` (as called from `query`)
carries the context's current transaction descriptor, is sent under a packet
header of RPC kind whose id comes from the context's packet-id counter, and the
counter is advanced exactly once per request. -/
theorem rpc_request_carries_context (q : String) (ps : List ColumnData) (s : ConnState) :
    (query q ps s).2 =
      [Event.flush,
       Event.send (PacketHeader.rpc s.ctx.packetId)
         (TokenRpcRequest.new RpcProcId.ExecuteSQL (requestParams q ps)
           s.ctx.transactionDescriptor)]
    ∧ (query q ps s).1.ctx.packetId = (s.ctx.packetId + 1) % 256 := by
  rw [query_events]
  exact ⟨rfl, rfl⟩

/-- C9: with an empty parameter list, the built request still contains the
`params` parameter, whose value is the empty string — the `I32 0` placeholder
set by `rpc_params` is replaced before sending — and the request contains no
`@PN` positional parameters. -/
theorem empty_params_request (q : String) (s : ConnState) :
    (query q [] s).2 =
      [Event.flush,
       Event.send (PacketHeader.rpc s.ctx.packetId)
         (TokenRpcRequest.new RpcProcId.ExecuteSQL
           [⟨"stmt", 0, ColumnData.Str (some q)⟩,
            ⟨"params", 0, ColumnData.Str (some "")⟩]
           s.ctx.transactionDescriptor)]
    ∧ ∀ p ∈ requestParams q [], ¬ "@P".data.isPrefixOf p.name.data := by
  constructor
  · rw [query_events, requestParams_eq]
    rfl
  · intro p hp
    rw [requestParams_eq] at hp
    simp only [posFrom, List.mem_cons, List.not_mem_nil, or_false] at hp
    rcases hp with h | h
    · subst h
      show ¬ ("@P".data.isPrefixOf "stmt".data) = true
      decide
    · subst h
      show ¬ ("@P".data.isPrefixOf "params".data) = true
      decide

/-- C5 counterexample: the synchronous wrapper's constructor does not return
the underlying error — when the underlying connect fails, `TokioSyncClient.new`
yields no value at all (the `.unwrap()` panic, modelled as `none`), so the
error is not propagated to the caller as a typed result. -/
theorem sync_new_hides_connect_error :
    TokioSyncClient.new (Except.error TdsError.ioError) = none := rfl

/-- C5 (amended): `Client::connect`, the error paths of `Client::query`,
`Client::close`, and the synchronous wrapper's `query` all propagate the
underlying error unchanged — but the synchronous wrapper's constructor
unwraps (panics) on a failed connect instead of returning the error. -/
theorem error_propagation_amended :
    (∀ e, Client.connect (Except.error e) = Except.error e)
    ∧ (∀ c, Client.connect (Except.ok c) = Except.ok ⟨c⟩)
    ∧ (∀ e sendR metaR, Client.query (Except.error e) sendR metaR = Except.error e)
    ∧ (∀ e metaR, Client.query (Except.ok ()) (Except.error e) metaR = Except.error e)
    ∧ (∀ e, Client.query (Except.ok ()) (Except.ok ()) (Except.error e) = Except.error e)
    ∧ (∀ r, Client.close r = r)
    ∧ (∀ e, TokioSyncClient.query (Except.error e) = Except.error e)
    ∧ (∀ e, TokioSyncClient.new (Except.error e) = none) :=
  ⟨fun _ => rfl, fun _ => rfl, fun _ _ _ => rfl, fun _ _ => rfl,
   fun _ => rfl, fun _ => rfl, fun _ => rfl, fun _ => rfl⟩

/-- C7: the authentication method has exactly the three variants `SqlServer`,
`AADToken` and `None`; `sql_server u p` yields the `SqlServer` variant storing
exactly that user and that password, and `aad_token t` yields the `AADToken`
variant storing exactly that token. -/
theorem auth_method_exactly_three :
    (∀ a : AuthMethod, (∃ s, a = AuthMethod.SqlServer s)
       ∨ (∃ t, a = AuthMethod.AADToken t) ∨ a = AuthMethod.None)
    ∧ (∀ u p, AuthMethod.sql_server u p =
        AuthMethod.SqlServer { user := u, password := p })
    ∧ (∀ t, AuthMethod.aad_token t = AuthMethod.AADToken t) := by
  refine ⟨fun a => ?_, fun u p => rfl, fun t => rfl⟩
  cases a with
  | SqlServer s => exact Or.inl ⟨s, rfl⟩
  | AADToken t => exact Or.inr (Or.inl ⟨t, rfl⟩)
  | None => exact Or.inr (Or.inr rfl)

/-- C8: the `Debug` rendering of `SqlServerAuth` never reveals the password —
any two values with equal `user` fields and arbitrary passwords render
identically, and the password field is always rendered as the quoted literal
`<HIDDEN>`. -/
theorem sql_server_auth_debug_hides_password (a b : SqlServerAuth)
    (h : a.user = b.user) :
    a.debugFmt = b.debugFmt
    ∧ a.debugFmt = "SqlServerAuth \x7b user: " ++ stringDebug a.user ++
        ", password: \"<HIDDEN>\" \x7d" := by
  have hH : stringDebug "<HIDDEN>" = "\"<HIDDEN>\"" := by decide
  constructor
  · simp [SqlServerAuth.debugFmt, h]
  · simp [SqlServerAuth.debugFmt, hH, String.append_assoc]

/-- C8 witness: two concrete values with the same user and different
passwords have identical debug renderings with the password hidden. -/
theorem sql_server_auth_debug_hides_password_witness :
    SqlServerAuth.debugFmt ⟨"sa", "hunter2"⟩ = SqlServerAuth.debugFmt ⟨"sa", "letmein"⟩
    ∧ SqlServerAuth.debugFmt ⟨"sa", "hunter2"⟩ =
        "SqlServerAuth \x7b user: " ++ stringDebug "sa" ++
          ", password: \"<HIDDEN>\" \x7d" :=
  sql_server_auth_debug_hides_password ⟨"sa", "hunter2"⟩ ⟨"sa", "letmein"⟩ rfl

/-- C10: the synchronous wrapper only delegates — for every outcome of the
async `Client::query`, running `TokioSyncClient::query` and then
`SyncQueryStream::into_row` gives the same result as running the async
query and then `QueryStream::into_row` to completion. -/
theorem sync_query_refines_async (r : Except TdsError QueryStream) :
    (TokioSyncClient.query r).bind SyncQueryStream.into_row
      = r.bind QueryStream.into_row := by
  cases r <;> rfl

end Tiberius
